import Mathlib

/-!
Shallow embedding of the HX-20 cassette tape encoder (hx20utils).

The encoder turns a BASIC program text into a pulse-width-modulated
waveform: a checksum engine (CCITT and Kermit CRC-16 variants), a pulse
encoder (bit → timed pulse, byte → 9 pulses), a block framer (frame body
+ checksum wrapped in sync/preamble/postamble), fixed 80-byte
header/footer metadata records, the file-level orchestration, and an
amplitude normalizer.

Machine integers are modelled as `Nat` with explicit truncation
(`&&& 0xFFFF`, `&&& 0xFF`) where the C++ `uint16_t`/`uint8_t` semantics
truncate.  The waveform is modelled at three faithful levels of
abstraction, each translated from the corresponding layer of the source:

* sample level: `addPulseSamples` records, for each emitted audio
  sample, which half of the pulse it belongs to and its index (the
  amplitude value itself is an IEEE-double `tanh` shape that no claim
  depends on);
* pulse level: `addBit`/`addByte`/`addBlockPulses` record the sequence
  of pulse durations in microseconds;
* event level: `encodeBasicProgram` records the sequence of file gaps,
  framed blocks and inter-block gaps, exactly mirroring the statement
  sequence of `HX20TapeEncoder::encodeBasicProgram`.

The wall-clock date/time strings read by the metadata builder via
`localtime` are passed in as explicit byte-list parameters.
-/

namespace HX20

/-- Sample rate of the generated waveform (`SAMPLE_RATE`). -/
def SAMPLE_RATE : Nat := 11025

/-- Short pulse duration in µs, used for bit 0 (`PULSE_SHORT`). -/
def PULSE_SHORT : Nat := 545

/-- Long pulse duration in µs, used for bit 1 (`PULSE_LONG`). -/
def PULSE_LONG : Nat := 1080

/-- Number of zero bits in the synchronization field (`SYNC_BITS`). -/
def SYNC_BITS : Nat := 80

/-- Size of one data block payload (`DATA_BLOCK_SIZE`). -/
def DATA_BLOCK_SIZE : Nat := 256

/-- The compile-time checksum convention switch (`#define KERMIT true`). -/
def KERMIT : Bool := true

/-- File type tags (`enum class BasicType`). -/
inductive BasicType
  | ASCII
  | TOKEN
  | SEQUENTIAL
  | BINARY
deriving DecidableEq, Repr

/-! ## Checksum engine -/

/-- One round of the CCITT CRC loop body: shift left (truncated to 16
bits) and conditionally XOR the polynomial 0x1021, testing the top bit
first (`calculateCRC`, inner `for` loop). -/
def crcCcittRound (crc : Nat) : Nat :=
  if crc &&& 0x8000 ≠ 0 then ((crc <<< 1) ^^^ 0x1021) &&& 0xFFFF
  else (crc <<< 1) &&& 0xFFFF

/-- Processing of one input byte by `calculateCRC`: XOR the byte into
the high half, then 8 rounds of `crcCcittRound`. -/
def crcCcittByte (crc b : Nat) : Nat :=
  crcCcittRound^[8] (crc ^^^ ((b &&& 0xFF) <<< 8))

/-- Embeds `HX20TapeEncoder::calculateCRC`: CRC-CCITT over a byte sequence,
accumulator initialized to 0xFFFF. -/
def calculateCRC (data : List Nat) : Nat :=
  data.foldl crcCcittByte 0xFFFF

/-- One round of the Kermit CRC loop body: shift right and conditionally
XOR the reflected polynomial 0x8408, testing the low bit first
(`calculateCRC_Kermit`, inner `for` loop). -/
def crcKermitRound (crc : Nat) : Nat :=
  if crc &&& 0x0001 ≠ 0 then (crc >>> 1) ^^^ 0x8408
  else crc >>> 1

/-- Processing of one input byte by `calculateCRC_Kermit`: XOR the byte
into the low half, then 8 rounds of `crcKermitRound`. -/
def crcKermitByte (crc b : Nat) : Nat :=
  crcKermitRound^[8] (crc ^^^ (b &&& 0xFF))

/-- Embeds `HX20TapeEncoder::calculateCRC_Kermit`: reflected CRC-16 over a byte
sequence, accumulator initialized to 0x0000. -/
def calculateCRC_Kermit (data : List Nat) : Nat :=
  data.foldl crcKermitByte 0

/-- Transcription of the spec's description of the CCITT variant, for
refinement against `calculateCRC`: "initialize accumulator to 0xFFFF;
for each byte, XOR it into the high byte of the accumulator, then
perform 8 rounds of: if the top bit is set, shift left and XOR with
polynomial 0x1021, else shift left". The 8 rounds are written as a fold
over `List.range 8`. -/
def ccittSpec (data : List Nat) : Nat :=
  data.foldl
    (fun acc b =>
      (List.range 8).foldl
        (fun crc _ =>
          if crc &&& 0x8000 ≠ 0 then ((crc <<< 1) ^^^ 0x1021) &&& 0xFFFF
          else (crc <<< 1) &&& 0xFFFF)
        (acc ^^^ ((b &&& 0xFF) <<< 8)))
    0xFFFF

/-- Transcription of the spec's description of the Kermit variant, for
refinement against `calculateCRC_Kermit`: "initialize accumulator to
0x0000; for each byte, XOR the byte directly into the accumulator, then
perform 8 rounds of: if the low bit is set, shift right and XOR with
0x8408, else shift right". -/
def kermitSpec (data : List Nat) : Nat :=
  data.foldl
    (fun acc b =>
      (List.range 8).foldl
        (fun crc _ =>
          if crc &&& 0x0001 ≠ 0 then (crc >>> 1) ^^^ 0x8408
          else crc >>> 1)
        (acc ^^^ (b &&& 0xFF)))
    0

/-! ## Pulse encoder, sample level -/

/-- Embeds `HX20TapeEncoder::addPulse`, sample level.  The C++ code computes
`samples = durationUs * SAMPLE_RATE / 1000000` (integer truncation),
`halfSamples = samples / 2`, and pushes `halfSamples` rising-edge
samples followed by `halfSamples` falling-edge samples.  Each emitted
sample is recorded here as a pair (rising?, index within its half); the
amplitude value (an IEEE-double `tanh` ease around the DC offset) is
abstracted since no structural claim depends on it. -/
def addPulseSamples (durationUs : Nat) : List (Bool × Nat) :=
  let samples := durationUs * SAMPLE_RATE / 1000000
  let halfSamples := samples / 2
  (List.range halfSamples).map (fun i => (true, i)) ++
    (List.range halfSamples).map (fun i => (false, i))

/-! ## Pulse encoder, pulse level

Each call to `addPulse` is recorded as one pulse duration. -/

/-- Embeds `HX20TapeEncoder::addBit`: one pulse, long for 1, short for 0. -/
def addBit (bit : Bool) : List Nat :=
  if bit then [PULSE_LONG] else [PULSE_SHORT]

/-- Embeds `HX20TapeEncoder::addByte`: bits 0..7 LSB first, then a stop bit 1. -/
def addByte (byte : Nat) : List Nat :=
  ((List.range 8).flatMap (fun i => addBit (((byte >>> i) &&& 1) ≠ 0))) ++
    addBit true

/-- Embeds `HX20TapeEncoder::addSyncField`: 80 zero bits. -/
def addSyncField : List Nat :=
  (List.range SYNC_BITS).flatMap (fun _ => addBit false)

/-- Embeds `HX20TapeEncoder::addPreamble`: an extra 1 bit, then 0xFF, 0xAA. -/
def addPreamble : List Nat :=
  addBit true ++ addByte 0xFF ++ addByte 0xAA

/-- Embeds `HX20TapeEncoder::addPostamble`: bytes 0xAA, 0x00. -/
def addPostamble : List Nat :=
  addByte 0xAA ++ addByte 0x00

/-- Embeds `HX20TapeEncoder::addFileGap`: 614 bytes of 0xFF. -/
def addFileGap : List Nat :=
  (List.range 614).flatMap (fun _ => addByte 0xFF)

/-- Embeds `HX20TapeEncoder::addInterblockGap`: `bytes` bytes of 0xFF. -/
def addInterblockGap (bytes : Nat) : List Nat :=
  (List.range bytes).flatMap (fun _ => addByte 0xFF)

/-! ## Block framer -/

/-- The complete frame of one block as built by
`HX20TapeEncoder::addBlock`: 4-byte identification field (type tag,
sequence number MSB, sequence number LSB, copy index), the payload, and
the two checksum bytes (LSB then MSB) computed over everything before
them.  The checksum convention is the compile-time `KERMIT` switch,
passed here as a parameter. -/
def blockData (blockType blockNumber blockID : Nat) (data : List Nat)
    (kermit : Bool) : List Nat :=
  let body := [blockType &&& 0xFF, (blockNumber >>> 8) &&& 0xFF,
               blockNumber &&& 0xFF, blockID &&& 0xFF] ++ data
  let crc := if kermit then calculateCRC_Kermit body else calculateCRC body
  body ++ [crc &&& 0xFF, (crc >>> 8) &&& 0xFF]

/-- The checksum selection of `addBlock`
(`KERMIT ? calculateCRC_Kermit(blockData) : calculateCRC(blockData)`). -/
def configuredCRC (kermit : Bool) (frame : List Nat) : Nat :=
  if kermit then calculateCRC_Kermit frame else calculateCRC frame

/-- Embeds `HX20TapeEncoder::addBlock`, pulse level: sync field, preamble, each
frame byte, postamble, then the trailing 100-byte inter-block gap that
`addBlock` itself emits. -/
def addBlockPulses (blockType blockNumber blockID : Nat) (data : List Nat)
    (kermit : Bool) : List Nat :=
  addSyncField ++ addPreamble ++
    (blockData blockType blockNumber blockID data kermit).flatMap addByte ++
    addPostamble ++ addInterblockGap 100

/-! ## Metadata builder -/

/-- Write the bytes of `src` into `h` at consecutive offsets starting at
`start` (the `for` loops of `createHeaderData`/`createFooterData` that
copy the filename, date, time and system-name strings). -/
def writeBytes : List Nat → Nat → List Nat → List Nat
  | h, _, [] => h
  | h, s, b :: bs => writeBytes (h.set s b) (s + 1) bs

/-- The `header[15]=...=header[19] = 0x00` zeroing statement shared by
`createHeaderData` and `createFooterData`. -/
def zeroFlags (h : List Nat) : List Nat :=
  ((((h.set 15 0x00).set 16 0x00).set 17 0x00).set 18 0x00).set 19 0x00

/-- The `switch (type)` statement of `createHeaderData` /
`createFooterData` setting the type-flag bytes. -/
def setTypeFlags (h : List Nat) (type : BasicType) : List Nat :=
  match type with
  | BasicType.ASCII => (h.set 16 0xFF).set 17 0xFF
  | BasicType.TOKEN => (h.set 16 0x00).set 17 0x00
  | BasicType.SEQUENTIAL => ((h.set 15 0x01).set 16 0xFF).set 17 0xFF
  | BasicType.BINARY => h.set 15 0x02

/-- The statements of `createHeaderData` / `createFooterData` after the
type-flag switch: record-type '2' at 20, block mode 'S' at 21, block
length "  256" at 22..26, the 6 date digits at 32..37 and the 6 time
digits at 38..43 (passed in as parameters, standing for the `localtime`
strings), volume "01" at 50..51, system name "HX-20   " at 52..59. -/
def fillTail (h0 : List Nat) (dateStr timeStr : List Nat) : List Nat :=
  let h := (h0.set 20 50).set 21 83
  let h := ((((h.set 22 32).set 23 32).set 24
      (DATA_BLOCK_SIZE / 100 % 10 + 48)).set 25
      (DATA_BLOCK_SIZE / 10 % 10 + 48)).set 26 (DATA_BLOCK_SIZE % 10 + 48)
  let h := writeBytes h 32 (dateStr.take 6)
  let h := writeBytes h 38 (timeStr.take 6)
  let h := (h.set 50 48).set 51 49
  writeBytes h 52 [72, 88, 45, 50, 48, 32, 32, 32]

/-- The body shared verbatim by `createHeaderData` and
`createFooterData` after the 4-byte identification tag: filename at
offsets 4..11 (at most 8 bytes), type-flag bytes 15..19 zeroed and then
set per the `BasicType` switch, then the fixed/clock fields of
`fillTail`.  Everything else keeps the 0x20 fill. -/
def fillRecordBody (h0 : List Nat) (filename : List Nat) (type : BasicType)
    (dateStr timeStr : List Nat) : List Nat :=
  fillTail (setTypeFlags (zeroFlags (writeBytes h0 4 (filename.take 8))) type)
    dateStr timeStr

/-- Embeds `HX20TapeEncoder::createHeaderData`: the 80-byte header record,
filled with 0x20, tagged "HDR1". -/
def createHeaderData (filename : List Nat) (type : BasicType)
    (dateStr timeStr : List Nat) : List Nat :=
  let h := List.replicate 80 0x20
  let h := (((h.set 0 72).set 1 68).set 2 82).set 3 49
  fillRecordBody h filename type dateStr timeStr

/-- Embeds `HX20TapeEncoder::createFooterData`: the 80-byte footer record,
identical layout to the header but tagged "EOFD". -/
def createFooterData (filename : List Nat) (type : BasicType)
    (dateStr timeStr : List Nat) : List Nat :=
  let h := List.replicate 80 0x20
  let h := (((h.set 0 69).set 1 79).set 2 70).set 3 68
  fillRecordBody h filename type dateStr timeStr

/-! ## Program encoder, event level

Each statement of `HX20TapeEncoder::encodeBasicProgram` is recorded as
one emission event; a `block` event stands for one `addBlock` call (its
pulse-level meaning is `addBlockPulses`). -/

/-- One emission step of the orchestrator. -/
inductive Emission
  | fileGap : Emission
  | block : Nat → Nat → Nat → List Nat → Emission
  | interblockGap : Nat → Emission
deriving DecidableEq, Repr

/-- The 256-byte data block payload built from one chunk of program
bytes: a buffer of 256 zero bytes with the chunk copied at the start. -/
def padChunk (c : List Nat) : List Nat :=
  c ++ List.replicate (DATA_BLOCK_SIZE - c.length) 0

/-- The data-block loop of `encodeBasicProgram` (`for (size_t i = 0; i <
programBytes.size(); i += DATA_BLOCK_SIZE)`), returning the emitted
events and the final value of the `blockNumber` counter. -/
def dataBlocksLoop (bytes : List Nat) (blockNumber : Nat) :
    List Emission × Nat :=
  if bytes.isEmpty then ([], blockNumber)
  else
    let chunk := padChunk (bytes.take DATA_BLOCK_SIZE)
    let rest := dataBlocksLoop (bytes.drop DATA_BLOCK_SIZE) (blockNumber + 1)
    (Emission.block 68 blockNumber 0 chunk ::
       Emission.block 68 blockNumber 1 chunk ::
       Emission.interblockGap 300 :: rest.1,
     rest.2)
termination_by bytes.length
decreasing_by
  rename_i h
  rw [List.isEmpty_iff] at h
  have hpos : 0 < bytes.length := List.length_pos.mpr h
  simp only [List.length_drop, DATA_BLOCK_SIZE]
  omega

/-- Embeds `HX20TapeEncoder::encodeBasicProgram`, event level.  The header
record is built once and written twice (copy 0 then 1, sequence number
0), then a 100-byte gap, then the data-block loop, then the footer
record built once and written twice with the final `blockNumber`, all
bracketed by file gaps.  `hdrDate`/`hdrTime` and `ftrDate`/`ftrTime`
stand for the two separate `localtime` reads. -/
def encodeBasicProgram (programText filename : List Nat) (filetype : BasicType)
    (hdrDate hdrTime ftrDate ftrTime : List Nat) : List Emission :=
  let headerData := createHeaderData filename filetype hdrDate hdrTime
  let loopOut := dataBlocksLoop programText 1
  let footerData := createFooterData filename filetype ftrDate ftrTime
  Emission.fileGap ::
    Emission.block 72 0 0 headerData ::
    Emission.block 72 0 1 headerData ::
    Emission.interblockGap 100 ::
    (loopOut.1 ++
      [Emission.block 69 loopOut.2 0 footerData,
       Emission.block 69 loopOut.2 1 footerData,
       Emission.fileGap])

/-- Number of 256-byte chunks of a text of length `L`: `⌈L / 256⌉`. -/
def numChunks (L : Nat) : Nat := (L + (DATA_BLOCK_SIZE - 1)) / DATA_BLOCK_SIZE

/-- The `k`-th (0-based) zero-padded 256-byte chunk of `bytes`. -/
def chunkAt (bytes : List Nat) (k : Nat) : List Nat :=
  padChunk ((bytes.drop (DATA_BLOCK_SIZE * k)).take DATA_BLOCK_SIZE)

/-! ## Amplitude normalizer

`HX20TapeEncoder::normalizeAudio`.  The C++ `double` arithmetic is
modelled with exact rationals; on the values that actually occur the
behaviour is identical (the only comparison against the literal 0.1
compares a multiple of 1/2 against it, and a half-integer is below the
double nearest 0.1 exactly when it is below 1/10). -/

/-- The running-minimum fold of `normalizeAudio` (initial value 255). -/
def minFold (audioData : List Nat) : Nat :=
  audioData.foldl (fun m s => if s < m then s else m) 255

/-- The running-maximum fold of `normalizeAudio` (initial value 0). -/
def maxFold (audioData : List Nat) : Nat :=
  audioData.foldl (fun m s => if s > m then s else m) 0

/-- Embeds `HX20TapeEncoder::normalizeAudio`: no-op on an empty buffer, no-op
when the half-range is below the 0.1 threshold, otherwise each sample
is re-centered at 128, scaled, clamped to 0..255 and truncated back to
an integer sample. -/
def normalizeAudio (audioData : List Nat) (targetAmplitude : ℚ) : List Nat :=
  if audioData.isEmpty then audioData
  else
    let minVal := minFold audioData
    let maxVal := maxFold audioData
    let currentCenter : ℚ := (minVal + maxVal) / 2
    let currentAmplitude : ℚ := ((maxVal : ℚ) - (minVal : ℚ)) / 2
    if currentAmplitude < 1 / 10 then audioData
    else
      let scale := targetAmplitude / currentAmplitude
      audioData.map (fun (s : Nat) =>
        let centered : ℚ := (s : ℚ) - currentCenter
        let scaled := centered * scale
        let result := 128 + scaled
        let clamped := if result < 0 then 0
          else if result > 255 then 255 else result
        (⌊clamped⌋).toNat)

/-! ## Observation functions on the emission stream

Spec-side definitions used to state the double-write invariant. -/

/-- The block writes of an emission stream, in order, with gaps
discarded: (type, sequence number, copy index, payload). -/
def blocksOf : List Emission → List (Nat × Nat × Nat × List Nat)
  | [] => []
  | Emission.block t n c p :: rest => (t, n, c, p) :: blocksOf rest
  | Emission.fileGap :: rest => blocksOf rest
  | Emission.interblockGap _ :: rest => blocksOf rest

/-- Transcribed from the spec's double-write invariant: each logical
block (type, sequence number, payload) transmitted twice, copy index 0
then copy index 1. -/
def doubleWrite (bs : List (Nat × Nat × List Nat)) :
    List (Nat × Nat × Nat × List Nat) :=
  bs.flatMap (fun b => [(b.1, b.2.1, 0, b.2.2), (b.1, b.2.1, 1, b.2.2)])

/-- The logical blocks of one encode operation per the spec: the header
record with sequence number 0, one block per 256-byte chunk numbered
from 1, and the footer record numbered one past the last data block. -/
def logicalBlocks (text f : List Nat) (ty : BasicType)
    (d1 t1 d2 t2 : List Nat) : List (Nat × Nat × List Nat) :=
  (72, 0, createHeaderData f ty d1 t1) ::
    ((List.range (numChunks text.length)).map
        (fun k => (68, 1 + k, chunkAt text k)) ++
      [(69, 1 + numChunks text.length, createFooterData f ty d2 t2)])

/-! ## Helper lemmas: checksum engine -/

lemma foldl_range_const (f : Nat → Nat) :
    ∀ (n : Nat) (x : Nat), (List.range n).foldl (fun c _ => f c) x = f^[n] x := by
  intro n
  induction n with
  | zero => intro x; rfl
  | succ n ih =>
    intro x
    rw [List.range_succ, List.foldl_append, ih]
    simp [Function.iterate_succ_apply']

lemma crcCcittRound_lt (crc : Nat) : crcCcittRound crc < 65536 := by
  unfold crcCcittRound
  split <;>
    simpa using Nat.and_lt_two_pow (n := 16) _ (by norm_num)

lemma crcCcittByte_lt (crc b : Nat) : crcCcittByte crc b < 65536 := by
  unfold crcCcittByte
  rw [show (8 : Nat) = 7 + 1 from rfl, Function.iterate_succ_apply']
  exact crcCcittRound_lt _

lemma foldl_crcCcittByte_lt (data : List Nat) :
    ∀ x, x < 65536 → data.foldl crcCcittByte x < 65536 := by
  induction data with
  | nil => intro x hx; simpa
  | cons a l ih => intro x _; exact ih _ (crcCcittByte_lt _ _)

lemma crcKermitRound_lt {crc : Nat} (h : crc < 65536) :
    crcKermitRound crc < 65536 := by
  unfold crcKermitRound
  have hs : crc >>> 1 < 65536 := by
    rw [Nat.shiftRight_eq_div_pow]
    exact Nat.lt_of_le_of_lt (Nat.div_le_self _ _) h
  split
  · simpa using Nat.xor_lt_two_pow (n := 16) (by simpa using hs) (by norm_num)
  · exact hs

lemma crcKermitRound_iterate_lt :
    ∀ (n : Nat) {x : Nat}, x < 65536 → crcKermitRound^[n] x < 65536 := by
  intro n
  induction n with
  | zero => intro x hx; simpa
  | succ n ih =>
    intro x hx
    rw [Function.iterate_succ_apply']
    exact crcKermitRound_lt (ih hx)

lemma crcKermitByte_lt {crc : Nat} (h : crc < 65536) (b : Nat) :
    crcKermitByte crc b < 65536 := by
  unfold crcKermitByte
  refine crcKermitRound_iterate_lt 8 ?_
  have hb : b &&& 0xFF < 65536 := Nat.and_lt_two_pow (n := 16) _ (by norm_num)
  simpa using Nat.xor_lt_two_pow (n := 16) (by simpa using h) (by simpa using hb)

lemma foldl_crcKermitByte_lt (data : List Nat) :
    ∀ x, x < 65536 → data.foldl crcKermitByte x < 65536 := by
  induction data with
  | nil => intro x hx; simpa
  | cons a l ih => intro x hx; exact ih _ (crcKermitByte_lt hx _)

/-- C2: the CCITT checksum follows the spec's byte-step recurrence from
accumulator 0xFFFF, the Kermit checksum from accumulator 0x0000, and
both are 16-bit values; both are plain functions of the byte sequence,
hence pure and deterministic. -/
theorem c2_crc_conventions (data : List Nat) :
    calculateCRC data = ccittSpec data ∧
    calculateCRC_Kermit data = kermitSpec data ∧
    calculateCRC data < 65536 ∧
    calculateCRC_Kermit data < 65536 := by
  refine ⟨?_, ?_, foldl_crcCcittByte_lt data _ (by norm_num),
    foldl_crcKermitByte_lt data _ (by norm_num)⟩
  · unfold calculateCRC ccittSpec
    refine List.foldl_ext _ _ _ fun acc b _ => ?_
    exact (foldl_range_const crcCcittRound 8 _).symm
  · unfold calculateCRC_Kermit kermitSpec
    refine List.foldl_ext _ _ _ fun acc b _ => ?_
    exact (foldl_range_const crcKermitRound 8 _).symm

/-! ## Helper lemmas: pulse encoder -/

lemma addBit_length (b : Bool) : (addBit b).length = 1 := by
  cases b <;> rfl

lemma length_flatMap_const {α β : Type} (f : α → List β) (k : Nat)
    (h : ∀ a, (f a).length = k) :
    ∀ l : List α, (l.flatMap f).length = k * l.length := by
  intro l
  induction l with
  | nil => simp
  | cons a t ih =>
    rw [List.flatMap_cons, List.length_append, ih, h, List.length_cons]
    ring

lemma addByte_length (b : Nat) : (addByte b).length = 9 := by
  unfold addByte
  rw [List.length_append,
    length_flatMap_const _ 1 (fun i => addBit_length _) _]
  simp [addBit_length]

lemma addSyncField_length : addSyncField.length = 80 := by
  unfold addSyncField
  rw [length_flatMap_const _ 1 (fun i => addBit_length _) _]
  simp [SYNC_BITS]

lemma addPreamble_length : addPreamble.length = 19 := by
  unfold addPreamble
  rw [List.length_append, List.length_append, addBit_length,
    addByte_length, addByte_length]

lemma addPostamble_length : addPostamble.length = 18 := by
  unfold addPostamble
  rw [List.length_append, addByte_length, addByte_length]

lemma addInterblockGap_length (n : Nat) :
    (addInterblockGap n).length = 9 * n := by
  unfold addInterblockGap
  rw [length_flatMap_const _ 9 (fun i => addByte_length _) _]
  simp

lemma blockData_length (t n id : Nat) (d : List Nat) (km : Bool) :
    (blockData t n id d km).length = d.length + 6 := by
  unfold blockData
  simp only [List.length_append, List.length_cons]
  simp
  omega

lemma addBlockPulses_length (t n id : Nat) (d : List Nat) (km : Bool) :
    (addBlockPulses t n id d km).length = 1017 + 9 * (d.length + 6) := by
  unfold addBlockPulses
  rw [List.length_append, List.length_append, List.length_append,
    List.length_append, addSyncField_length, addPreamble_length,
    addPostamble_length, addInterblockGap_length,
    length_flatMap_const _ 9 (fun i => addByte_length _) _,
    blockData_length]
  omega

lemma addBit_eq_singleton (x : Bool) :
    addBit x = [if x then PULSE_LONG else PULSE_SHORT] := by
  cases x <;> rfl

lemma testBit_decide (b i : Nat) :
    decide ((b >>> i) &&& 1 ≠ 0) = b.testBit i := by
  simp [Nat.testBit, Nat.and_comm]

lemma flatMap_singleton_fn {α β : Type} (l : List α) (g : α → β) :
    (l.flatMap fun a => [g a]) = l.map g := by
  induction l with
  | nil => rfl
  | cons a t ih => rw [List.flatMap_cons, List.map_cons, ih]; rfl

/-- C9: `addByte` emits exactly 9 bit-pulses: bits 0 through 7 of the
byte, least-significant first, then one stop bit that is always 1 (a
long pulse). -/
theorem c9_addByte_nine_pulses (b : Nat) :
    addByte b =
      (List.range 8).map
        (fun i => if b.testBit i then PULSE_LONG else PULSE_SHORT) ++
        [PULSE_LONG] ∧
    (addByte b).length = 9 := by
  refine ⟨?_, addByte_length b⟩
  unfold addByte
  congr 1
  · simp only [addBit_eq_singleton, testBit_decide]
    exact flatMap_singleton_fn _ _

/-- C5 counterexample: for the long pulse (1080 µs) the code appends 10
samples, not `⌊1080 × 11025 / 10⁶⌋ = 11` as the claim states for every
duration in use. -/
theorem c5_counterexample :
    (addPulseSamples PULSE_LONG).length ≠
      PULSE_LONG * SAMPLE_RATE / 1000000 := by
  decide

/-- C5 (amended): `emitPulse(d)` appends `2·⌊⌊d·11025/10⁶⌋/2⌋` samples
(the truncated total rounded down to even), split into two equal halves,
a rising half followed by a falling half; for the short 545 µs pulse
this coincides with `⌊d·11025/10⁶⌋ = 6`, but for the long 1080 µs pulse
it is 10, one fewer than `⌊1080·11025/10⁶⌋ = 11`. -/
theorem c5_addPulse_samples (d : Nat) :
    (addPulseSamples d).length = 2 * (d * SAMPLE_RATE / 1000000 / 2) ∧
    (addPulseSamples d).take (d * SAMPLE_RATE / 1000000 / 2) =
      (List.range (d * SAMPLE_RATE / 1000000 / 2)).map (fun i => (true, i)) ∧
    (addPulseSamples d).drop (d * SAMPLE_RATE / 1000000 / 2) =
      (List.range (d * SAMPLE_RATE / 1000000 / 2)).map (fun i => (false, i)) := by
  unfold addPulseSamples
  refine ⟨?_, ?_, ?_⟩
  · simp [List.length_append]; ring
  · exact List.take_left' (by simp)
  · exact List.drop_left' (by simp)

/-- C4 counterexample: for a concrete block (header type, sequence 0,
copy 0, empty payload) one `addBlock` call appends 1071 pulses, not the
`80 + 19 + 9×(frameBody+2) + 18 = 171` the claim states, because
`addBlock` also emits its trailing 100-byte inter-block gap (900
pulses). -/
theorem c4_counterexample :
    (addBlockPulses 72 0 0 [] true).length ≠
      80 + 19 + 9 * ((4 + ([] : List Nat).length) + 2) + 18 := by
  rw [addBlockPulses_length]
  simp

/-- C4 (amended): the pulses appended by one block-write are the claimed
`80 (sync) + 19 (preamble) + 9×(len(frameBody)+2) + 18 (postamble)` plus
900 further pulses for the trailing 100-byte inter-block gap that
`addBlock` itself emits (`len(frameBody) = 4 + len(payload)`). -/
theorem c4_addBlock_pulse_count (t n id : Nat) (d : List Nat) (km : Bool) :
    (addBlockPulses t n id d km).length =
      80 + 19 + 9 * ((4 + d.length) + 2) + 18 + 900 := by
  rw [addBlockPulses_length]
  omega

/-! ## Helper lemmas: block framer and C3 -/

lemma and_255_eq_mod (x : Nat) : x &&& 0xFF = x % 256 := by
  have h := Nat.and_pow_two_sub_one_eq_mod x 8
  norm_num at h
  exact h

lemma shiftRight8_eq_div (x : Nat) : x >>> 8 = x / 256 := by
  rw [Nat.shiftRight_eq_div_pow]

/-- C3: `addBlock` builds the frame body as 1 type-tag byte, the 16-bit
sequence number big-endian (high byte first), 1 copy-index byte, then
the payload; computes the checksum over this full frame body in the
configured convention (the compile-time switch defaults to Kermit); and
appends the checksum low byte first, high byte second, regardless of the
convention. -/
theorem c3_frame_layout (t n id : Nat) (payload : List Nat) (kermit : Bool) :
    KERMIT = true ∧
    blockData t n id payload kermit =
      ([t % 256, n / 256 % 256, n % 256, id % 256] ++ payload) ++
        [configuredCRC kermit
            ([t % 256, n / 256 % 256, n % 256, id % 256] ++ payload) % 256,
         configuredCRC kermit
            ([t % 256, n / 256 % 256, n % 256, id % 256] ++ payload) / 256 % 256] := by
  refine ⟨rfl, ?_⟩
  unfold blockData configuredCRC
  simp only [and_255_eq_mod, shiftRight8_eq_div]

/-! ## Helper lemmas: metadata builder -/

lemma writeBytes_length : ∀ (src : List Nat) (h : List Nat) (s : Nat),
    (writeBytes h s src).length = h.length := by
  intro src
  induction src with
  | nil => intro h s; rfl
  | cons b bs ih =>
    intro h s
    rw [writeBytes, ih, List.length_set]

lemma writeBytes_getElem?_lt : ∀ (src : List Nat) (h : List Nat) (s j : Nat),
    j < s → (writeBytes h s src)[j]? = h[j]? := by
  intro src
  induction src with
  | nil => intro h s j _; rfl
  | cons b bs ih =>
    intro h s j hj
    rw [writeBytes, ih _ _ _ (Nat.lt_succ_of_lt hj),
      List.getElem?_set_ne (Nat.ne_of_gt hj)]

lemma fillTail_getElem?_lt (h : List Nat) (d t : List Nat) (j : Nat)
    (hj : j < 20) : (fillTail h d t)[j]? = h[j]? := by
  unfold fillTail
  rw [writeBytes_getElem?_lt _ _ _ _ (by omega),
    List.getElem?_set_ne (by omega), List.getElem?_set_ne (by omega),
    writeBytes_getElem?_lt _ _ _ _ (by omega),
    writeBytes_getElem?_lt _ _ _ _ (by omega),
    List.getElem?_set_ne (by omega), List.getElem?_set_ne (by omega),
    List.getElem?_set_ne (by omega), List.getElem?_set_ne (by omega),
    List.getElem?_set_ne (by omega), List.getElem?_set_ne (by omega),
    List.getElem?_set_ne (by omega)]

/-- C7: for every filename, file type and clock value, the type-flag
bytes at offsets 15–19 of the 80-byte header record are exactly one of
the four fixed patterns — ASCII: bytes 16,17 = 0xFF; TOKEN: bytes 16,17
= 0x00; SEQUENTIAL: byte 15 = 0x01 and bytes 16,17 = 0xFF; BINARY:
byte 15 = 0x02 only — with every other byte in 15–19 equal to 0x00, and
the footer record carries the identical mapping. -/
theorem c7_type_flag_mapping (filename : List Nat) (ty : BasicType)
    (d1 t1 d2 t2 : List Nat) :
    ((createHeaderData filename ty d1 t1)[15]?,
     (createHeaderData filename ty d1 t1)[16]?,
     (createHeaderData filename ty d1 t1)[17]?,
     (createHeaderData filename ty d1 t1)[18]?,
     (createHeaderData filename ty d1 t1)[19]?) =
      (match ty with
       | BasicType.ASCII =>
          (some 0x00, some 0xFF, some 0xFF, some 0x00, some 0x00)
       | BasicType.TOKEN =>
          (some 0x00, some 0x00, some 0x00, some 0x00, some 0x00)
       | BasicType.SEQUENTIAL =>
          (some 0x01, some 0xFF, some 0xFF, some 0x00, some 0x00)
       | BasicType.BINARY =>
          (some 0x02, some 0x00, some 0x00, some 0x00, some 0x00)) ∧
    ((createFooterData filename ty d2 t2)[15]?,
     (createFooterData filename ty d2 t2)[16]?,
     (createFooterData filename ty d2 t2)[17]?,
     (createFooterData filename ty d2 t2)[18]?,
     (createFooterData filename ty d2 t2)[19]?) =
      (match ty with
       | BasicType.ASCII =>
          (some 0x00, some 0xFF, some 0xFF, some 0x00, some 0x00)
       | BasicType.TOKEN =>
          (some 0x00, some 0x00, some 0x00, some 0x00, some 0x00)
       | BasicType.SEQUENTIAL =>
          (some 0x01, some 0xFF, some 0xFF, some 0x00, some 0x00)
       | BasicType.BINARY =>
          (some 0x02, some 0x00, some 0x00, some 0x00, some 0x00)) := by
  constructor <;>
    cases ty <;>
      simp [createHeaderData, createFooterData, fillRecordBody, setTypeFlags,
        zeroFlags, fillTail_getElem?_lt, List.getElem?_set_ne,
        List.getElem?_set_self, writeBytes_length, List.length_set,
        List.length_replicate]

/-! ## Helper lemmas: program encoder -/

lemma chunkAt_zero (bytes : List Nat) :
    chunkAt bytes 0 = padChunk (bytes.take DATA_BLOCK_SIZE) := by
  unfold chunkAt
  rw [Nat.mul_zero, List.drop_zero]

lemma chunkAt_succ (bytes : List Nat) (k : Nat) :
    chunkAt bytes (k + 1) = chunkAt (bytes.drop DATA_BLOCK_SIZE) k := by
  unfold chunkAt
  rw [List.drop_drop]
  congr 3
  unfold DATA_BLOCK_SIZE
  ring

lemma numChunks_zero : numChunks 0 = 0 := by
  unfold numChunks DATA_BLOCK_SIZE
  omega

lemma numChunks_step (L : Nat) (hL : 0 < L) :
    numChunks L = numChunks (L - DATA_BLOCK_SIZE) + 1 := by
  unfold numChunks DATA_BLOCK_SIZE
  omega

lemma dataBlocksLoop_eq (bytes : List Nat) (n : Nat) :
    dataBlocksLoop bytes n =
      ((List.range (numChunks bytes.length)).flatMap (fun k =>
          [Emission.block 68 (n + k) 0 (chunkAt bytes k),
           Emission.block 68 (n + k) 1 (chunkAt bytes k),
           Emission.interblockGap 300]),
       n + numChunks bytes.length) := by
  rw [dataBlocksLoop]
  by_cases hb : bytes.isEmpty
  · rw [if_pos hb]
    have h0 : bytes.length = 0 := by
      rw [List.isEmpty_iff] at hb
      simp [hb]
    rw [h0, numChunks_zero]
    simp
  · rw [if_neg hb]
    have hpos : 0 < bytes.length := by
      rw [List.isEmpty_iff] at hb
      exact List.length_pos.mpr hb
    have hrec := dataBlocksLoop_eq (bytes.drop DATA_BLOCK_SIZE) (n + 1)
    rw [hrec]
    have hNC : numChunks bytes.length =
        numChunks ((bytes.drop DATA_BLOCK_SIZE).length) + 1 := by
      rw [List.length_drop]
      exact numChunks_step _ hpos
    dsimp only
    rw [hNC, List.range_succ_eq_map, List.flatMap_cons, List.flatMap_map]
    simp only [Prod.mk.injEq]
    refine ⟨?_, by omega⟩
    simp only [Nat.add_zero, chunkAt_zero, List.cons_append, List.nil_append]
    congr 1
    congr 1
    congr 1
    congr 1
    funext k
    simp only [Nat.succ_eq_add_one, chunkAt_succ]
    have hnk : n + (k + 1) = n + 1 + k := by omega
    rw [hnk]
termination_by bytes.length
decreasing_by
  rw [List.isEmpty_iff] at hb
  have := List.length_pos.mpr hb
  simp only [List.length_drop, DATA_BLOCK_SIZE]
  omega

lemma encodeBasicProgram_eq (text f : List Nat) (ty : BasicType)
    (d1 t1 d2 t2 : List Nat) :
    encodeBasicProgram text f ty d1 t1 d2 t2 =
      [Emission.fileGap,
       Emission.block 72 0 0 (createHeaderData f ty d1 t1),
       Emission.block 72 0 1 (createHeaderData f ty d1 t1),
       Emission.interblockGap 100] ++
      ((List.range (numChunks text.length)).flatMap (fun k =>
        [Emission.block 68 (1 + k) 0 (chunkAt text k),
         Emission.block 68 (1 + k) 1 (chunkAt text k),
         Emission.interblockGap 300])) ++
      [Emission.block 69 (1 + numChunks text.length) 0
          (createFooterData f ty d2 t2),
       Emission.block 69 (1 + numChunks text.length) 1
          (createFooterData f ty d2 t2),
       Emission.fileGap] := by
  unfold encodeBasicProgram
  rw [dataBlocksLoop_eq]
  simp [List.cons_append, List.nil_append, List.append_assoc]

/-- C1: for every program text of positive length, `encodeBasicProgram`
emits exactly: a file gap, header copy 0, header copy 1, a 100-byte
inter-block gap, then for each of the ⌈L/256⌉ data chunks the block
copy 0, copy 1 and a 300-byte gap (the final chunk zero-padded to 256
bytes by `chunkAt`, sequence numbers starting at 1 and incrementing
once per chunk), then footer copy 0 and copy 1 carrying sequence number
⌈L/256⌉ + 1, and a final file gap — and nothing else. -/
theorem c1_encode_sequence (text f : List Nat) (ty : BasicType)
    (d1 t1 d2 t2 : List Nat) (_hL : 0 < text.length) :
    encodeBasicProgram text f ty d1 t1 d2 t2 =
      [Emission.fileGap,
       Emission.block 72 0 0 (createHeaderData f ty d1 t1),
       Emission.block 72 0 1 (createHeaderData f ty d1 t1),
       Emission.interblockGap 100] ++
      ((List.range (numChunks text.length)).flatMap (fun k =>
        [Emission.block 68 (1 + k) 0 (chunkAt text k),
         Emission.block 68 (1 + k) 1 (chunkAt text k),
         Emission.interblockGap 300])) ++
      [Emission.block 69 (1 + numChunks text.length) 0
          (createFooterData f ty d2 t2),
       Emission.block 69 (1 + numChunks text.length) 1
          (createFooterData f ty d2 t2),
       Emission.fileGap] :=
  encodeBasicProgram_eq text f ty d1 t1 d2 t2

/-- Witness for C1 at the one-byte program text `[49]`. -/
theorem c1_encode_sequence_witness :
    0 < ([49] : List Nat).length ∧
    encodeBasicProgram [49] [] BasicType.ASCII [] [] [] [] =
      [Emission.fileGap,
       Emission.block 72 0 0 (createHeaderData [] BasicType.ASCII [] []),
       Emission.block 72 0 1 (createHeaderData [] BasicType.ASCII [] []),
       Emission.interblockGap 100] ++
      ((List.range (numChunks ([49] : List Nat).length)).flatMap (fun k =>
        [Emission.block 68 (1 + k) 0 (chunkAt [49] k),
         Emission.block 68 (1 + k) 1 (chunkAt [49] k),
         Emission.interblockGap 300])) ++
      [Emission.block 69 (1 + numChunks ([49] : List Nat).length) 0
          (createFooterData [] BasicType.ASCII [] []),
       Emission.block 69 (1 + numChunks ([49] : List Nat).length) 1
          (createFooterData [] BasicType.ASCII [] []),
       Emission.fileGap] :=
  ⟨by decide,
   c1_encode_sequence [49] [] BasicType.ASCII [] [] [] [] (by decide)⟩

/-! ## Helper lemmas: double write -/

lemma blocksOf_append : ∀ (l r : List Emission),
    blocksOf (l ++ r) = blocksOf l ++ blocksOf r := by
  intro l r
  induction l with
  | nil => rfl
  | cons e t ih =>
    cases e <;> simp [blocksOf, ih]

lemma blocksOf_flatMap {α : Type} (l : List α) (g : α → List Emission) :
    blocksOf (l.flatMap g) = l.flatMap (fun a => blocksOf (g a)) := by
  induction l with
  | nil => rfl
  | cons a t ih =>
    rw [List.flatMap_cons, List.flatMap_cons, blocksOf_append, ih]

/-- C6: the blocks of one encode operation are exactly the logical
blocks each written twice, copy index 0 then copy index 1 with
identical type, sequence number and payload; and two frames of the
same block that differ only in copy index agree on every frame byte
outside the copy-index position 3 and the trailing checksum bytes. -/
theorem c6_double_write (text f : List Nat) (ty : BasicType)
    (d1 t1 d2 t2 : List Nat) (t n id id' : Nat) (p : List Nat) (km : Bool)
    (j : Nat) (hj3 : j ≠ 3) (hjlen : j < 4 + p.length) :
    blocksOf (encodeBasicProgram text f ty d1 t1 d2 t2) =
      doubleWrite (logicalBlocks text f ty d1 t1 d2 t2) ∧
    (blockData t n id p km)[j]? = (blockData t n id' p km)[j]? := by
  constructor
  · rw [encodeBasicProgram_eq, blocksOf_append, blocksOf_append,
      blocksOf_flatMap]
    unfold doubleWrite logicalBlocks
    rw [List.flatMap_cons, List.flatMap_append, List.flatMap_map]
    simp [blocksOf]
  · unfold blockData
    dsimp only
    match j, hj3 with
    | 0, _ => simp
    | 1, _ => simp
    | 2, _ => simp
    | (k+4), _ =>
      simp only [List.cons_append, List.nil_append, List.getElem?_cons_succ]
      rw [List.getElem?_append_left (by omega),
        List.getElem?_append_left (by omega)]

/-- Witness for C6 at a concrete encode and frame byte index 0. -/
theorem c6_double_write_witness :
    blocksOf (encodeBasicProgram [49] [] BasicType.ASCII [] [] [] []) =
      doubleWrite (logicalBlocks [49] [] BasicType.ASCII [] [] [] []) ∧
    (blockData 72 0 0 [] true)[0]? = (blockData 72 0 1 [] true)[0]? :=
  c6_double_write [49] [] BasicType.ASCII [] [] [] [] 72 0 0 1 [] true 0
    (by decide) (by decide)

/-- C10: both header block copies carry sequence number 0, and because
each metadata record is built once per encode and reused for both
copies, the two header copies (and the two footer copies) carry the
same record payload for every clock value, timestamp included. -/
theorem c10_header_seq_and_shared_records (text f : List Nat)
    (ty : BasicType) (d1 t1 d2 t2 : List Nat) :
    (encodeBasicProgram text f ty d1 t1 d2 t2)[1]? =
      some (Emission.block 72 0 0 (createHeaderData f ty d1 t1)) ∧
    (encodeBasicProgram text f ty d1 t1 d2 t2)[2]? =
      some (Emission.block 72 0 1 (createHeaderData f ty d1 t1)) ∧
    (encodeBasicProgram text f ty d1 t1 d2 t2).reverse[2]? =
      some (Emission.block 69 (1 + numChunks text.length) 0
        (createFooterData f ty d2 t2)) ∧
    (encodeBasicProgram text f ty d1 t1 d2 t2).reverse[1]? =
      some (Emission.block 69 (1 + numChunks text.length) 1
        (createFooterData f ty d2 t2)) := by
  rw [encodeBasicProgram_eq]
  refine ⟨by simp, by simp, ?_, ?_⟩ <;>
    simp [List.reverse_append]

/-! ## Helper lemmas: amplitude normalizer -/

lemma minFold_le_acc (buf : List Nat) :
    ∀ a : Nat, buf.foldl (fun m s => if s < m then s else m) a ≤ a := by
  induction buf with
  | nil => intro a; exact Nat.le_refl a
  | cons s tl ih =>
    intro a
    rw [List.foldl_cons]
    calc tl.foldl (fun m s => if s < m then s else m) (if s < a then s else a)
        ≤ (if s < a then s else a) := ih _
      _ ≤ a := by split <;> omega

lemma minFold_le_mem (buf : List Nat) :
    ∀ (a : Nat) (x : Nat), x ∈ buf →
      buf.foldl (fun m s => if s < m then s else m) a ≤ x := by
  induction buf with
  | nil => intro a x hx; cases hx
  | cons s tl ih =>
    intro a x hx
    rw [List.foldl_cons]
    rcases List.mem_cons.mp hx with rfl | hx
    · calc tl.foldl (fun m s => if s < m then s else m) (if x < a then x else a)
          ≤ (if x < a then x else a) := minFold_le_acc tl _
        _ ≤ x := by split <;> omega
    · exact ih _ _ hx

lemma minFold_acc_or_mem (buf : List Nat) :
    ∀ a : Nat, buf.foldl (fun m s => if s < m then s else m) a = a ∨
      buf.foldl (fun m s => if s < m then s else m) a ∈ buf := by
  induction buf with
  | nil => intro a; exact Or.inl rfl
  | cons s tl ih =>
    intro a
    rw [List.foldl_cons]
    rcases ih (if s < a then s else a) with h | h
    · by_cases hs : s < a
      · rw [if_pos hs] at h ⊢
        rw [h]
        exact Or.inr (List.mem_cons_self _ _)
      · rw [if_neg hs] at h ⊢
        rw [h]
        exact Or.inl rfl
    · exact Or.inr (List.mem_cons_of_mem _ h)

lemma maxFold_ge_acc (buf : List Nat) :
    ∀ a : Nat, a ≤ buf.foldl (fun m s => if s > m then s else m) a := by
  induction buf with
  | nil => intro a; exact Nat.le_refl a
  | cons s tl ih =>
    intro a
    rw [List.foldl_cons]
    calc a ≤ (if s > a then s else a) := by split <;> omega
      _ ≤ tl.foldl (fun m s => if s > m then s else m) (if s > a then s else a) :=
        ih _

lemma maxFold_ge_mem (buf : List Nat) :
    ∀ (a : Nat) (x : Nat), x ∈ buf →
      x ≤ buf.foldl (fun m s => if s > m then s else m) a := by
  induction buf with
  | nil => intro a x hx; cases hx
  | cons s tl ih =>
    intro a x hx
    rw [List.foldl_cons]
    rcases List.mem_cons.mp hx with rfl | hx
    · calc x ≤ (if x > a then x else a) := by split <;> omega
        _ ≤ tl.foldl (fun m s => if s > m then s else m) _ := maxFold_ge_acc tl _
    · exact ih _ _ hx

lemma maxFold_acc_or_mem (buf : List Nat) :
    ∀ a : Nat, buf.foldl (fun m s => if s > m then s else m) a = a ∨
      buf.foldl (fun m s => if s > m then s else m) a ∈ buf := by
  induction buf with
  | nil => intro a; exact Or.inl rfl
  | cons s tl ih =>
    intro a
    rw [List.foldl_cons]
    rcases ih (if s > a then s else a) with h | h
    · by_cases hs : s > a
      · rw [if_pos hs] at h ⊢
        rw [h]
        exact Or.inr (List.mem_cons_self _ _)
      · rw [if_neg hs] at h ⊢
        rw [h]
        exact Or.inl rfl
    · exact Or.inr (List.mem_cons_of_mem _ h)

lemma minFold_mem (buf : List Nat) (hne : buf ≠ [])
    (hb : ∀ x ∈ buf, x ≤ 255) : minFold buf ∈ buf := by
  rcases minFold_acc_or_mem buf 255 with h | h
  · obtain ⟨x, hx⟩ := List.exists_mem_of_ne_nil buf hne
    have h1 : minFold buf ≤ x := minFold_le_mem buf 255 x hx
    have h2 : x ≤ 255 := hb x hx
    unfold minFold at *
    have : x = 255 := by omega
    rw [h, ← this] at *
    exact (this ▸ hx)
  · exact h

lemma maxFold_mem (buf : List Nat) (hne : buf ≠ []) : maxFold buf ∈ buf := by
  rcases maxFold_acc_or_mem buf 0 with h | h
  · obtain ⟨x, hx⟩ := List.exists_mem_of_ne_nil buf hne
    have h1 : x ≤ maxFold buf := maxFold_ge_mem buf 0 x hx
    unfold maxFold at *
    have : x = 0 := by omega
    rw [h]
    exact this ▸ hx
  · exact h

lemma clamp_eq_min_max (q : ℚ) :
    (if q < 0 then 0 else if q > 255 then (255 : ℚ) else q) =
      min 255 (max 0 q) := by
  split_ifs with h1 h2
  · rw [max_eq_left h1.le]
    norm_num
  · rw [max_eq_right (by linarith), min_eq_left (by linarith)]
  · rw [max_eq_right (by linarith), min_eq_right (by linarith)]

/-- C8: on a nonempty byte buffer, `minFold`/`maxFold` are the buffer's
true minimum and maximum, and normalization is a no-op exactly when the
half-range (max − min)/2 is below the 0.1 threshold (in particular on a
flat all-equal buffer, where max = min), while otherwise each sample is
mapped linearly — its distance from the buffer's center (min+max)/2 is
scaled by targetAmplitude divided by the half-range, re-centered at 128
and clamped into 0..255 — before being truncated back to an integer
sample. -/
theorem c8_normalize (buf : List Nat) (t : ℚ) (hne : buf ≠ [])
    (hbytes : ∀ x ∈ buf, x ≤ 255) :
    minFold buf ∈ buf ∧ (∀ x ∈ buf, minFold buf ≤ x) ∧
    maxFold buf ∈ buf ∧ (∀ x ∈ buf, x ≤ maxFold buf) ∧
    normalizeAudio buf t =
      (if ((maxFold buf : ℚ) - (minFold buf : ℚ)) / 2 < 1 / 10 then buf
       else buf.map (fun (s : Nat) =>
        (⌊min 255 (max 0
            (128 + ((s : ℚ) - ((minFold buf : ℚ) + (maxFold buf : ℚ)) / 2) *
              (t / (((maxFold buf : ℚ) - (minFold buf : ℚ)) / 2))))⌋).toNat)) := by
  refine ⟨minFold_mem buf hne hbytes, fun x hx => minFold_le_mem buf 255 x hx,
    maxFold_mem buf hne, fun x hx => maxFold_ge_mem buf 0 x hx, ?_⟩
  unfold normalizeAudio
  rw [if_neg (by simpa [List.isEmpty_iff] using hne)]
  dsimp only
  congr 1
  congr 1
  funext s
  dsimp only
  rw [clamp_eq_min_max]

/-- Witness for C8 at the buffer `[0, 255]` with target amplitude 50. -/
theorem c8_normalize_witness :
    minFold [0, 255] ∈ ([0, 255] : List Nat) ∧
    (∀ x ∈ ([0, 255] : List Nat), minFold [0, 255] ≤ x) ∧
    maxFold [0, 255] ∈ ([0, 255] : List Nat) ∧
    (∀ x ∈ ([0, 255] : List Nat), x ≤ maxFold [0, 255]) ∧
    normalizeAudio [0, 255] 50 =
      (if ((maxFold [0, 255] : ℚ) - (minFold [0, 255] : ℚ)) / 2 < 1 / 10
       then [0, 255]
       else ([0, 255] : List Nat).map (fun (s : Nat) =>
        (⌊min 255 (max 0
            (128 + ((s : ℚ) -
                ((minFold [0, 255] : ℚ) + (maxFold [0, 255] : ℚ)) / 2) *
              (50 / (((maxFold [0, 255] : ℚ) -
                (minFold [0, 255] : ℚ)) / 2))))⌋).toNat)) :=
  c8_normalize [0, 255] 50 (by decide) (by decide)
